import Mathlib

/-!
Verification development for the rkik NTP probe orchestration core.

The Rust sources are shallowly embedded:
* `f64` values are modelled by `EF`, an extended-rational type with IEEE-style
  special values (`nan`, `inf`, `ninf`); finite arithmetic is exact rational
  arithmetic, and the special-value propagation (0/0 = NaN, comparisons with
  NaN are false, `f64::min`/`f64::max` ignore NaN, folds start from the
  infinities) mirrors IEEE 754 where the claims exercise it.
* Rust strings are `List Char`; `chrono` datetimes are unix-second `Int`s.
* System DNS (`to_socket_addrs`) and the wire NTP client (`rsntp`) are
  external collaborators, passed in as oracle functions.
* Fallible Rust functions returning `Result` become `Except`.
-/

set_option autoImplicit false

deriving instance DecidableEq for Except

/-- Model of Rust `f64`: exact rationals plus the IEEE special values used by
the code (positive/negative infinity and NaN). -/
inductive EF where
  | nan
  | inf
  | ninf
  | fin (q : ℚ)
deriving DecidableEq, Repr

namespace EF

/-- IEEE addition (used by `sum::<f64>()`, folded from `0.0`). -/
def add : EF → EF → EF
  | nan, _ => nan
  | _, nan => nan
  | inf, ninf => nan
  | ninf, inf => nan
  | inf, _ => inf
  | _, inf => inf
  | ninf, _ => ninf
  | _, ninf => ninf
  | fin a, fin b => fin (a + b)

/-- IEEE multiplication (signed zeros are not distinguished). -/
def mul : EF → EF → EF
  | nan, _ => nan
  | _, nan => nan
  | inf, inf => inf
  | inf, ninf => ninf
  | ninf, inf => ninf
  | ninf, ninf => inf
  | inf, fin b => if b = 0 then nan else if 0 < b then inf else ninf
  | fin a, inf => if a = 0 then nan else if 0 < a then inf else ninf
  | ninf, fin b => if b = 0 then nan else if 0 < b then ninf else inf
  | fin a, ninf => if a = 0 then nan else if 0 < a then ninf else inf
  | fin a, fin b => fin (a * b)

/-- IEEE division; in particular `0.0 / 0.0 = NaN` (signed zeros are not
distinguished, so a finite value divided by zero goes to the infinity picked
by the numerator's sign). -/
def div : EF → EF → EF
  | nan, _ => nan
  | _, nan => nan
  | inf, inf => nan
  | inf, ninf => nan
  | ninf, inf => nan
  | ninf, ninf => nan
  | inf, fin b => if b < 0 then ninf else inf
  | ninf, fin b => if b < 0 then inf else ninf
  | fin _, inf => fin 0
  | fin _, ninf => fin 0
  | fin a, fin b =>
    if b = 0 then (if a = 0 then nan else if 0 < a then inf else ninf)
    else fin (a / b)

/-- IEEE `<`: every comparison involving NaN is false. -/
def lt : EF → EF → Bool
  | nan, _ => false
  | _, nan => false
  | inf, _ => false
  | ninf, ninf => false
  | ninf, _ => true
  | fin _, inf => true
  | fin _, ninf => false
  | fin a, fin b => decide (a < b)

/-- IEEE `<=`: every comparison involving NaN is false. -/
def le : EF → EF → Bool
  | nan, _ => false
  | _, nan => false
  | inf, inf => true
  | inf, _ => false
  | ninf, _ => true
  | _, inf => true
  | fin _, ninf => false
  | fin a, fin b => decide (a ≤ b)

/-- IEEE `==`: NaN is not equal to anything, including itself. -/
def beq : EF → EF → Bool
  | nan, _ => false
  | _, nan => false
  | inf, inf => true
  | ninf, ninf => true
  | fin a, fin b => decide (a = b)
  | _, _ => false

/-- Rust `f64::min`: if one argument is NaN the other is returned. -/
def fmin (x y : EF) : EF :=
  match x, y with
  | nan, b => b
  | a, nan => a
  | a, b => if lt a b then a else if lt b a then b else a

/-- Rust `f64::max`: if one argument is NaN the other is returned. -/
def fmax (x y : EF) : EF :=
  match x, y with
  | nan, b => b
  | a, nan => a
  | a, b => if lt b a then a else if lt a b then b else a

/-- Rust `f64::abs`. -/
def abs : EF → EF
  | nan => nan
  | inf => inf
  | ninf => inf
  | fin a => fin |a|

end EF

/-- Model of `std::net::IpAddr`: only the address family and an abstract
payload matter to the core. -/
inductive IpAddr where
  | v4 (a : Nat)
  | v6 (a : Nat)
deriving DecidableEq, Repr

/-- `IpAddr::is_ipv4`. -/
def IpAddr.is_ipv4 : IpAddr → Bool
  | v4 _ => true
  | v6 _ => false

/-- `IpAddr::is_ipv6`. -/
def IpAddr.is_ipv6 : IpAddr → Bool
  | v4 _ => false
  | v6 _ => true

/-- `src/error.rs`: the current library error enum. `IoError` models the
source's IO variant, carrying the rendered message of the underlying
operating-system error. -/
inductive RkikError where
  | Dns (msg : String)
  | Network (msg : String)
  | Protocol (msg : String)
  | IoError (msg : String)
  | Other (msg : String)
deriving DecidableEq, Repr

/-- A single-quote character as a string, used to reproduce the `'{..}'`
quoting in the source's `format!` messages. -/
def squote : String := (Char.ofNat 39).toString

/-- Rust `str::trim` on the `List Char` string model. -/
def trim (s : List Char) : List Char :=
  ((s.dropWhile Char.isWhitespace).reverse.dropWhile Char.isWhitespace).reverse

/-- `src/services/query.rs`: count occurrences of a colon
(helps distinguish host:port vs bare IPv6). -/
def colon_count (s : List Char) : Nat :=
  s.countP (fun ch => ch == ':')

/-- Numeric value of a digit string (the accumulator loop of integer
parsing). -/
def digitsToNat (s : List Char) : Nat :=
  s.foldl (fun acc ch => acc * 10 + (ch.toNat - 48)) 0

/-- Rust `u32::from_str`: an optional leading plus sign followed by a
non-empty run of decimal digits whose value fits in `u32`. -/
def u32_from_str (s : List Char) : Option Nat :=
  let t := if s.head? = some '+' then s.tail else s
  if !t.isEmpty && t.all Char.isDigit then
    if digitsToNat t ≤ 4294967295 then some (digitsToNat t) else none
  else none

/-- `src/services/query.rs::parse_port_strict`: strict port parsing with
range check (1..=65535). -/
def parse_port_strict (s : List Char) : Except RkikError Nat :=
  match u32_from_str s with
  | none => .error (RkikError.Other ("invalid port: " ++ squote ++ s.asString ++ squote))
  | some raw =>
    if raw = 0 || 65535 < raw then
      .error (RkikError.Other ("port out of range [1..65535]: " ++ Nat.repr raw))
    else
      .ok raw

/-- `src/services/query.rs::ParsedTarget`: parsed view of a target string. -/
structure ParsedTarget where
  host : List Char
  port : Option Nat
  is_ipv6_literal : Bool
deriving DecidableEq, Repr

/-- `src/services/query.rs::parse_target`: parse a user target string.
Bracketed input must be `[v6]` or `[v6]:port`; otherwise zero colons means a
plain host, exactly one colon means `host:port`, and two or more colons are
treated as a bare IPv6 literal with no port. -/
def parse_target (input : List Char) : Except RkikError ParsedTarget :=
  match trim input with
  | [] => .error (RkikError.Other ("empty target"))
  | '[' :: rest =>
    match rest.findIdx? (fun ch => ch == ']') with
    | none =>
      .error (RkikError.Other ("missing closing " ++ squote ++ "]" ++ squote ++ " in " ++
        squote ++ ('[' :: rest).asString ++ squote))
    | some bracket_pos =>
      let host := rest.take bracket_pos
      let tail := rest.drop (bracket_pos + 1)
      match tail with
      | ':' :: p =>
        match parse_port_strict p with
        | .ok port => .ok ⟨host, some port, true⟩
        | .error e => .error e
      | [] => .ok ⟨host, none, true⟩
      | _ =>
        .error (RkikError.Other ("unexpected trailing characters in " ++
          squote ++ ('[' :: rest).asString ++ squote))
  | s =>
    if colon_count s = 0 then
      .ok ⟨s, none, false⟩
    else if colon_count s = 1 then
      let port_str := (s.reverse.takeWhile (fun ch => ch != ':')).reverse
      let host := ((s.reverse.dropWhile (fun ch => ch != ':')).drop 1).reverse
      if host = [] then
        .error (RkikError.Other ("missing host before port in " ++
          squote ++ s.asString ++ squote))
      else
        match parse_port_strict port_str with
        | .ok port => .ok ⟨host, some port, false⟩
        | .error e => .error e
    else
      .ok ⟨s, none, true⟩

/-- `src/adapters/resolver.rs::resolve_ip`: pick one address for a host.
`sys` is the system resolver (`to_socket_addrs` on port 123): it either
fails with a message or yields the address list in system order. If
`ipv6_only`, keep IPv6 addresses only; otherwise partition into IPv4 and
IPv6 buckets, IPv4 first. The first remaining address wins; an empty
remainder is a `Dns` error. -/
def resolve_ip (sys : List Char → Except String (List IpAddr))
    (target : List Char) (ipv6_only : Bool) : Except RkikError IpAddr :=
  match sys target with
  | .error e => .error (RkikError.Dns e)
  | .ok addrs =>
    let filtered : List IpAddr :=
      if ipv6_only then
        addrs.filter (fun ip => ip.is_ipv6)
      else
        (addrs.partition (fun ip => ip.is_ipv4)).1 ++
          (addrs.partition (fun ip => ip.is_ipv4)).2
    match filtered with
    | [] =>
      if ipv6_only then
        .error (RkikError.Dns ("No IPv6 address found for " ++
          squote ++ target.asString ++ squote))
      else
        .error (RkikError.Dns ("No IP address found for " ++
          squote ++ target.asString ++ squote))
    | ip :: _ => .ok ip

/-- `src/domain/ntp.rs::Target` (with the port stamped by `query_one`). -/
structure Target where
  name : String
  ip : IpAddr
  port : Nat
deriving DecidableEq, Repr

/-- `src/domain/ntp.rs::ProbeResult`: the protocol-agnostic measurement.
The `chrono` datetimes are collapsed into the unix-second `timestamp`. -/
structure ProbeResult where
  target : Target
  offset_ms : EF
  rtt_ms : EF
  stratum : Nat
  ref_id : String
  timestamp : Int
  authenticated : Bool
deriving DecidableEq, Repr

/-- Abstraction of `rsntp::SynchronizationResult` as returned by the wire
client: clock offset and round-trip delay in seconds (`as_secs_f64`),
stratum, rendered reference identifier, and the outcome of the fallible
`datetime().try_into()` conversion as a unix timestamp. -/
structure SynchronizationResult where
  clock_offset_s : EF
  round_trip_s : EF
  stratum : Nat
  ref_id : String
  datetime : Except String Int

/-- `src/stats.rs::Stats`. -/
structure Stats where
  count : Nat
  offset_avg : EF
  offset_min : EF
  offset_max : EF
  rtt_avg : EF
deriving DecidableEq, Repr

/-- `src/stats.rs::compute_stats`: pure reduction of a sample series.
Sums fold `f64` addition from `0.0`; the min/max folds start from the
infinities; the averages divide by `count as f64` without guarding
against an empty series. -/
def compute_stats (results : List ProbeResult) : Stats :=
  let count := results.length
  let offset_avg :=
    EF.div ((results.map (fun r => r.offset_ms)).foldl EF.add (EF.fin 0)) (EF.fin count)
  let offset_min := (results.map (fun r => r.offset_ms)).foldl EF.fmin EF.inf
  let offset_max := (results.map (fun r => r.offset_ms)).foldl EF.fmax EF.ninf
  let rtt_avg :=
    EF.div ((results.map (fun r => r.rtt_ms)).foldl EF.add (EF.fin 0)) (EF.fin count)
  { count := count
    offset_avg := offset_avg
    offset_min := offset_min
    offset_max := offset_max
    rtt_avg := rtt_avg }

/-- Tail of `src/services/query.rs::query_one` (standard NTP branch): the
fallible datetime conversion, unit conversion of offset and round-trip to
milliseconds, and assembly of the `ProbeResult` stamped with the original
target string, resolved address and port. -/
def finishProbe (target : List Char) (ip : IpAddr) (port : Nat)
    (res : SynchronizationResult) : Except RkikError ProbeResult :=
  match res.datetime with
  | .error e => .error (RkikError.Other e)
  | .ok ts =>
    .ok { target := ⟨target.asString, ip, port⟩
          offset_ms := EF.mul res.clock_offset_s (EF.fin 1000)
          rtt_ms := EF.mul res.round_trip_s (EF.fin 1000)
          stratum := res.stratum
          ref_id := res.ref_id
          timestamp := ts
          authenticated := false }

/-- `src/services/query.rs::query_one` (standard NTP branch, `use_nts`
false): parse the target, resolve the host with the caller's `ipv6`
preference, take the parsed port or default 123, then force `ipv6` to true
for IPv6 literals before invoking the NTP client. `client` is the wire
collaborator `ntp_client::query` taking address, ipv6 mode, timeout and
port. -/
def query_one (sys : List Char → Except String (List IpAddr))
    (client : IpAddr → Bool → Nat → Nat → Except RkikError SynchronizationResult)
    (target : List Char) (ipv6 : Bool) (timeout : Nat) :
    Except RkikError ProbeResult :=
  match parse_target target with
  | .error e => .error e
  | .ok parsed =>
    match resolve_ip sys parsed.host ipv6 with
    | .error e => .error e
    | .ok ip =>
      let port := parsed.port.getD 123
      let ipv6b := if parsed.is_ipv6_literal then true else ipv6
      match client ip ipv6b timeout port with
      | .error e => .error e
      | .ok res => finishProbe target ip port res

/-- The result-collection loop of `src/services/compare.rs::compare_many`:
`for res in results { out.push(res?) }` — the first per-target error is
propagated as the batch result. -/
def collectResults : List (Except RkikError ProbeResult) →
    Except RkikError (List ProbeResult)
  | [] => .ok []
  | .error e :: _ => .error e
  | .ok r :: rest =>
    match collectResults rest with
    | .ok out => .ok (r :: out)
    | .error e => .error e

/-- `src/services/compare.rs::compare_many`: query many targets concurrently
(`join_all` keeps input order) and collect the results. -/
def compare_many (sys : List Char → Except String (List IpAddr))
    (client : IpAddr → Bool → Nat → Nat → Except RkikError SynchronizationResult)
    (targets : List (List Char)) (ipv6_only : Bool) (timeout : Nat) :
    Except RkikError (List ProbeResult) :=
  collectResults (targets.map (fun t => query_one sys client t ipv6_only timeout))

/-- `src/bin/rkik.rs`: model of the `tokio::time::timeout` wrapper inside
`src/adapters/ntp_client.rs::query`: an elapsed timer (`none`) is mapped to
`RkikError::Network("timeout")`, otherwise the client's own result stands. -/
def ntp_query_outcome (raw : Option (Except RkikError SynchronizationResult)) :
    Except RkikError SynchronizationResult :=
  match raw with
  | none => .error (RkikError.Network ("timeout"))
  | some r => r

namespace Core

/-- `src/errors.rs`: the legacy core error enum. -/
inductive RkikError where
  | ResolveError (msg : String)
  | SyncError (msg : String)
  | General (msg : String)
deriving DecidableEq, Repr

/-- `src/ntp/resolver.rs::resolve_ip`: same filtering policy as the adapter
resolver, `ResolveError` instead of `Dns`. -/
def resolve_ip (sys : List Char → Except String (List IpAddr))
    (host : List Char) (ipv6_only : Bool) : Except Core.RkikError IpAddr :=
  match sys host with
  | .error e =>
    .error (Core.RkikError.ResolveError ("DNS resolution failed for " ++
      squote ++ host.asString ++ squote ++ ": " ++ e))
  | .ok addrs =>
    let filtered : List IpAddr :=
      if ipv6_only then
        addrs.filter (fun ip => ip.is_ipv6)
      else
        (addrs.partition (fun ip => ip.is_ipv4)).1 ++
          (addrs.partition (fun ip => ip.is_ipv4)).2
    match filtered with
    | [] =>
      if ipv6_only then
        .error (Core.RkikError.ResolveError ("No IPv6 address found for " ++
          squote ++ host.asString ++ squote))
      else
        .error (Core.RkikError.ResolveError ("No IP address found for " ++
          squote ++ host.asString ++ squote))
    | ip :: _ => .ok ip

/-- `src/core/compare.rs::compare`: resolve every server, drop resolution
failures, synchronize the remaining ones concurrently (`join_all`, input
order), keep the successful exchanges as `(name, ip, offset_ms)` with the
offset converted from seconds to milliseconds; fewer than two requested,
resolved, or successful servers is a batch-level error. `sync` is the
`client.synchronize` collaborator returning the clock offset in seconds. -/
def compare (sys : List Char → Except String (List IpAddr))
    (sync : IpAddr → Except String EF)
    (servers : List (List Char)) (ipv6 : Bool) :
    Except Core.RkikError (List (List Char × IpAddr × EF)) :=
  if servers.length < 2 then
    .error (Core.RkikError.General ("Need at least 2 servers to compare"))
  else
    let resolved := servers.map (fun s => (s, Core.resolve_ip sys s ipv6))
    let valid := resolved.filterMap (fun p =>
      match p.2 with
      | .ok addr => some (p.1, addr)
      | .error _ => none)
    if valid.length < 2 then
      .error (Core.RkikError.General ("Not enough valid servers to compare."))
    else
      let results := valid.map (fun v => sync v.2)
      let final_results := (valid.zip results).filterMap (fun pr =>
        match pr.2 with
        | .ok r => some (pr.1.1, pr.1.2, EF.mul r (EF.fin 1000))
        | .error _ => none)
      if final_results.length < 2 then
        .error (Core.RkikError.General ("At least two successful responses required to compare."))
      else
        .ok final_results

/-- The per-server success observation of `Core.compare`: `some` exactly
when both resolution and synchronization succeed, carrying the measurement
the engine would report for that server. -/
def successOf (sys : List Char → Except String (List IpAddr))
    (sync : IpAddr → Except String EF) (ipv6 : Bool) (s : List Char) :
    Option (List Char × IpAddr × EF) :=
  match Core.resolve_ip sys s ipv6 with
  | .ok ip =>
    match sync ip with
    | .ok r => some (s, ip, EF.mul r (EF.fin 1000))
    | .error _ => none
  | .error _ => none

end Core

/-- `src/bin/rkik.rs::handle_error`: interactive exit-code mapping —
`Dns` → 2, `Network("timeout")` → 3, everything else → 1. -/
def handle_error : RkikError → Nat
  | RkikError.Dns _ => 2
  | RkikError.Network s => if s = "timeout" then 3 else 1
  | _ => 1

/-- `src/bin/rkik.rs::query_loop` (plugin tail, lines 558-595): the
threshold evaluation on the aggregated stats. `exit_code` starts at 0, is
raised to 2 when `critical` is set and `|offset_avg| >= critical`, and —
only if still 0 — to 1 when `warning` is set and `|offset_avg| >= warning`.
The `>=` comparisons are IEEE, hence inclusive at the boundary and false on
NaN. -/
def thresholdExit (stats : Stats) (warning critical : Option EF) : Nat :=
  let abs_offset := stats.offset_avg.abs
  let ec : Nat :=
    match critical with
    | some c => if EF.le c abs_offset then 2 else 0
    | none => 0
  if ec = 0 then
    match warning with
    | some w => if EF.le w abs_offset then 1 else 0
    | none => 0
  else ec

/-- `src/bin/rkik.rs::query_loop` (plugin tail, lines 551-556): an empty
collected series emits UNKNOWN and exits 3, otherwise the thresholds are
evaluated on `compute_stats`. -/
def pluginFinish (all : List ProbeResult) (warning critical : Option EF) : Nat :=
  if all = [] then 3 else thresholdExit (compute_stats all) warning critical

/-- `src/bin/rkik.rs::query_loop`, exit-code semantics of one sampling run.
`outcomes` is the sequence of per-iteration probe results the run would
observe; `all` accumulates the successful samples (initially `[]`).
A successful iteration is appended and the loop continues; a failure exits
immediately — with UNKNOWN/3 in plugin mode, with `handle_error` in
interactive mode. A completed run evaluates the plugin tail, or returns 0
interactively (`main` returns 0 after `query_loop`). -/
def query_loop_run (plugin : Bool) (warning critical : Option EF) :
    List (Except RkikError ProbeResult) → List ProbeResult → Nat
  | [], all => if plugin then pluginFinish all warning critical else 0
  | .ok r :: rest, all => query_loop_run plugin warning critical rest (all ++ [r])
  | .error e :: _, _ => if plugin then 3 else handle_error e

/-- `src/bin/rkik.rs::query_loop`: the Nagios-style state label derived from
the exit code. -/
def stateName (exit_code : Nat) : String :=
  if exit_code = 0 then "OK"
  else if exit_code = 1 then "WARNING"
  else if exit_code = 2 then "CRITICAL"
  else "UNKNOWN"

/-- `src/bin/rkik.rs::Args`, restricted to the fields consulted by the
pre-probe validation of `main` (lines 175-294). `warning`, `critical` and
`interval` are `f64`-valued. -/
structure Args where
  plugin : Bool
  warning : Option EF
  critical : Option EF
  infinite : Bool
  count : Nat
  interval : EF
  compare : Option (List String)
deriving DecidableEq, Repr

/-- Negativity test applied by `main` to an optional threshold
(`w < 0.0`, IEEE). -/
def negThreshold : Option EF → Bool
  | some w => EF.lt w (EF.fin 0)
  | none => false

/-- `src/bin/rkik.rs::main`, lines 175-294: the usage checks run before any
probing, in source order, each exiting with code 2. Feature-gated checks
(`ptp`, `nts`, `sync`) are compiled out in the default configuration and the
short-format/verbose check only prints a warning, so neither appears here.
Returns `some 2` when a check fires, `none` when validation passes. -/
def validateArgs (a : Args) : Option Nat :=
  if a.plugin && negThreshold a.warning then some 2
  else if a.plugin && negThreshold a.critical then some 2
  else if a.plugin && (match a.warning, a.critical with
      | some w, some c => EF.le c w
      | _, _ => false) then some 2
  else if a.infinite && a.count != 1 then some 2
  else if !(EF.beq a.interval (EF.fin 1)) && !a.infinite && a.count == 1 then some 2
  else if a.plugin && a.compare.isSome then some 2
  else none

/-- `src/bin/rkik.rs::main`: validation precedes dispatch. The returned
flag records whether the dispatch stage (and hence any probe) was reached;
a failed validation exits with its code before any probe is dispatched. -/
def rkikMain (a : Args) (dispatch : Args → Nat) : Nat × Bool :=
  match validateArgs a with
  | some code => (code, false)
  | none => (dispatch a, true)

/-- The contradictory-flag situations named by the spec (with the interval
rule as the code enforces it, keying on a count different from the default
1). The threshold cases carry `plugin = true` because `--warning` and
`--critical` are declared with `requires = "plugin"` at the CLI layer. -/
def usageViolation (a : Args) : Prop :=
  (a.infinite = true ∧ 1 < a.count)
  ∨ (a.plugin = true ∧ ∃ w : ℚ, a.warning = some (EF.fin w) ∧ w < 0)
  ∨ (a.plugin = true ∧ ∃ c : ℚ, a.critical = some (EF.fin c) ∧ c < 0)
  ∨ (a.plugin = true ∧ ∃ w c : ℚ, a.warning = some (EF.fin w) ∧
      a.critical = some (EF.fin c) ∧ ¬ w < c)
  ∨ (EF.beq a.interval (EF.fin 1) = false ∧ a.infinite = false ∧ a.count = 1)

/-- Fixture: a measurement with the given offsets (ms). -/
def probeOf (name : String) (ip : IpAddr) (offset rtt : ℚ) : ProbeResult :=
  { target := ⟨name, ip, 123⟩
    offset_ms := EF.fin offset
    rtt_ms := EF.fin rtt
    stratum := 2
    ref_id := "REF"
    timestamp := 0
    authenticated := false }

/-- Fixture: a benign wire exchange (offset 0, conversion succeeds). -/
def syncFix : SynchronizationResult :=
  { clock_offset_s := EF.fin 0
    round_trip_s := EF.fin 0
    stratum := 2
    ref_id := "REF"
    datetime := Except.ok 0 }

/-- Fixture: an NTP client that always answers with `syncFix`. -/
def clientFix : IpAddr → Bool → Nat → Nat → Except RkikError SynchronizationResult :=
  fun _ _ _ _ => .ok syncFix

/-- Fixture: a system resolver for which only host `b` fails. -/
def sysAB : List Char → Except String (List IpAddr) :=
  fun h => if h = ("b".toList) then .error ("nx") else .ok [IpAddr.v4 1]

/-- Fixture: a wire exchange with zero clock offset for every address. -/
def syncFixZero : IpAddr → Except String EF :=
  fun _ => .ok (EF.fin 0)

/-- Fixture: a system resolver giving `example.com` both an A and an AAAA
record. -/
def sysBoth : List Char → Except String (List IpAddr) :=
  fun h => if h = ("example.com".toList) then .ok [IpAddr.v4 1, IpAddr.v6 1]
    else .error ("no such host")

/-- Fixture: a system resolver knowing only the IPv6 literal. -/
def sysV6only : List Char → Except String (List IpAddr) :=
  fun h => if h = ("2001:db8::1".toList) then .ok [IpAddr.v6 9] else .error ("nx")

/-- Fixture: a host with one AAAA and two A records, AAAA first in system
order. -/
def sysMixed : List Char → Except String (List IpAddr) :=
  fun h => if h = ("mixed.example".toList)
    then .ok [IpAddr.v6 7, IpAddr.v4 3, IpAddr.v4 4] else .error ("nx")

/-- Fixture: the spec's sample series with offsets 1, -1, 3. -/
def c9series : List ProbeResult :=
  [probeOf ("s") (IpAddr.v4 1) 1 10,
   probeOf ("s") (IpAddr.v4 1) (-1) 20,
   probeOf ("s") (IpAddr.v4 1) 3 30]

/-- Fixture: a single successful sample with zero offset. -/
def sample0 : ProbeResult := probeOf ("pool.example") (IpAddr.v4 1) 0 10

theorem EF.add_fin (a b : ℚ) : EF.add (EF.fin a) (EF.fin b) = EF.fin (a + b) := rfl

theorem EF.fmin_fin (a b : ℚ) : EF.fmin (EF.fin a) (EF.fin b) = EF.fin (min a b) := by
  rcases lt_trichotomy a b with h | h | h
  · simp [EF.fmin, EF.lt, h, min_eq_left h.le]
  · simp [EF.fmin, EF.lt, h, lt_irrefl]
  · simp [EF.fmin, EF.lt, h, not_lt_of_gt h, min_eq_right h.le]

theorem EF.fmax_fin (a b : ℚ) : EF.fmax (EF.fin a) (EF.fin b) = EF.fin (max a b) := by
  rcases lt_trichotomy a b with h | h | h
  · simp [EF.fmax, EF.lt, h, not_lt_of_gt h, max_eq_right h.le]
  · simp [EF.fmax, EF.lt, h, lt_irrefl]
  · simp [EF.fmax, EF.lt, h, max_eq_left h.le]

theorem EF.foldl_add_fin (qs : List ℚ) (a : ℚ) :
    (qs.map EF.fin).foldl EF.add (EF.fin a) = EF.fin (a + qs.sum) := by
  induction qs generalizing a with
  | nil => simp
  | cons q t ih => simp [EF.add_fin, ih, add_assoc]

theorem EF.foldl_fmin_fin (qs : List ℚ) (a : ℚ) :
    (qs.map EF.fin).foldl EF.fmin (EF.fin a) = EF.fin (qs.foldl min a) := by
  induction qs generalizing a with
  | nil => rfl
  | cons q t ih => simp [EF.fmin_fin, ih]

theorem EF.foldl_fmax_fin (qs : List ℚ) (a : ℚ) :
    (qs.map EF.fin).foldl EF.fmax (EF.fin a) = EF.fin (qs.foldl max a) := by
  induction qs generalizing a with
  | nil => rfl
  | cons q t ih => simp [EF.fmax_fin, ih]

theorem EF.fmin_inf_fin (a : ℚ) : EF.fmin EF.inf (EF.fin a) = EF.fin a := rfl

theorem EF.fmax_ninf_fin (a : ℚ) : EF.fmax EF.ninf (EF.fin a) = EF.fin a := rfl

theorem EF.div_fin_of_ne (a b : ℚ) (hb : b ≠ 0) :
    EF.div (EF.fin a) (EF.fin b) = EF.fin (a / b) := by
  simp [EF.div, hb]

theorem foldl_min_mem (qs : List ℚ) (a : ℚ) : qs.foldl min a ∈ a :: qs := by
  induction qs generalizing a with
  | nil => simp
  | cons q t ih =>
    have h := ih (min a q)
    rw [List.foldl_cons]
    rcases List.mem_cons.1 h with h1 | h1
    · rw [h1]
      rcases min_cases a q with ⟨he, -⟩ | ⟨he, -⟩
      · rw [he]; exact List.mem_cons_self _ _
      · rw [he]; exact List.mem_cons_of_mem _ (List.mem_cons_self _ _)
    · exact List.mem_cons_of_mem _ (List.mem_cons_of_mem _ h1)

theorem foldl_min_le (qs : List ℚ) (a : ℚ) :
    qs.foldl min a ≤ a ∧ ∀ x ∈ qs, qs.foldl min a ≤ x := by
  induction qs generalizing a with
  | nil => simp
  | cons q t ih =>
    obtain ⟨h1, h2⟩ := ih (min a q)
    refine ⟨le_trans h1 (min_le_left a q), ?_⟩
    intro x hx
    rcases List.mem_cons.1 hx with rfl | hx
    · exact le_trans h1 (min_le_right a x)
    · exact h2 x hx

theorem foldl_max_mem (qs : List ℚ) (a : ℚ) : qs.foldl max a ∈ a :: qs := by
  induction qs generalizing a with
  | nil => simp
  | cons q t ih =>
    have h := ih (max a q)
    rw [List.foldl_cons]
    rcases List.mem_cons.1 h with h1 | h1
    · rw [h1]
      rcases max_cases a q with ⟨he, -⟩ | ⟨he, -⟩
      · rw [he]; exact List.mem_cons_self _ _
      · rw [he]; exact List.mem_cons_of_mem _ (List.mem_cons_self _ _)
    · exact List.mem_cons_of_mem _ (List.mem_cons_of_mem _ h1)

theorem foldl_max_ge (qs : List ℚ) (a : ℚ) :
    a ≤ qs.foldl max a ∧ ∀ x ∈ qs, x ≤ qs.foldl max a := by
  induction qs generalizing a with
  | nil => simp
  | cons q t ih =>
    obtain ⟨h1, h2⟩ := ih (max a q)
    refine ⟨le_trans (le_max_left a q) h1, ?_⟩
    intro x hx
    rcases List.mem_cons.1 hx with rfl | hx
    · exact le_trans (le_max_right a x) h1
    · exact h2 x hx

/-- Claim C9: for every non-empty sample series (all values finite), the
statistics aggregation returns `count` equal to the series length,
`offset_avg` the arithmetic mean of the offsets, `offset_min`/`offset_max`
the minimum/maximum offset (an element of the series bounding all others),
and `rtt_avg` the mean of the round-trip times. -/
theorem c9_stats_correct (rs : List ProbeResult) (o rt : ℚ) (os rts : List ℚ)
    (ho : rs.map (fun r => r.offset_ms) = (o :: os).map EF.fin)
    (hr : rs.map (fun r => r.rtt_ms) = (rt :: rts).map EF.fin) :
    (compute_stats rs).count = rs.length
    ∧ (compute_stats rs).offset_avg = EF.fin ((o :: os).sum / ((o :: os).length : ℚ))
    ∧ (compute_stats rs).offset_min = EF.fin (os.foldl min o)
    ∧ (os.foldl min o ∈ o :: os ∧ ∀ x ∈ o :: os, os.foldl min o ≤ x)
    ∧ (compute_stats rs).offset_max = EF.fin (os.foldl max o)
    ∧ (os.foldl max o ∈ o :: os ∧ ∀ x ∈ o :: os, x ≤ os.foldl max o)
    ∧ (compute_stats rs).rtt_avg = EF.fin ((rt :: rts).sum / ((rt :: rts).length : ℚ)) := by
  have hlen : rs.length = os.length + 1 := by
    have := congrArg List.length ho
    simpa using this
  have hlenr : rs.length = rts.length + 1 := by
    have := congrArg List.length hr
    simpa using this
  have hcast : ((rs.length : ℚ)) ≠ 0 := by
    rw [hlen]; push_cast; positivity
  constructor
  · rfl
  refine ⟨?_, ?_, ?_, ?_, ?_, ?_⟩
  · have hq : (rs.length : ℚ) = ((o :: os).length : ℚ) := by rw [hlen]; simp
    show EF.div ((rs.map (fun r => r.offset_ms)).foldl EF.add (EF.fin 0)) (EF.fin rs.length) = _
    rw [ho, EF.foldl_add_fin, EF.div_fin_of_ne _ _ hcast, zero_add, hq]
  · show (rs.map (fun r => r.offset_ms)).foldl EF.fmin EF.inf = _
    rw [ho, List.map_cons, List.foldl_cons, EF.fmin_inf_fin, EF.foldl_fmin_fin]
  · exact ⟨foldl_min_mem os o, by
      intro x hx
      rcases List.mem_cons.1 hx with rfl | hx
      · exact (foldl_min_le os x).1
      · exact (foldl_min_le os o).2 x hx⟩
  · show (rs.map (fun r => r.offset_ms)).foldl EF.fmax EF.ninf = _
    rw [ho, List.map_cons, List.foldl_cons, EF.fmax_ninf_fin, EF.foldl_fmax_fin]
  · exact ⟨foldl_max_mem os o, by
      intro x hx
      rcases List.mem_cons.1 hx with rfl | hx
      · exact (foldl_max_ge os x).1
      · exact (foldl_max_ge os o).2 x hx⟩
  · have hq : (rs.length : ℚ) = ((rt :: rts).length : ℚ) := by rw [hlenr]; simp
    show EF.div ((rs.map (fun r => r.rtt_ms)).foldl EF.add (EF.fin 0)) (EF.fin rs.length) = _
    rw [hr, EF.foldl_add_fin, EF.div_fin_of_ne _ _ hcast, zero_add, hq]

/-- Witness for C9 at the spec's series: offsets `[1, -1, 3]` give
`offset_avg = 1`, `offset_min = -1`, `offset_max = 3`, `count = 3`. -/
theorem c9_witness :
    (compute_stats c9series).count = 3
    ∧ (compute_stats c9series).offset_avg = EF.fin 1
    ∧ (compute_stats c9series).offset_min = EF.fin (-1)
    ∧ (compute_stats c9series).offset_max = EF.fin 3 := by
  obtain ⟨hc, havg, hmin, -, hmax, -, -⟩ :=
    c9_stats_correct c9series 1 10 [-1, 3] [20, 30] (by decide) (by decide)
  refine ⟨by rw [hc]; rfl, ?_, ?_, ?_⟩
  · rw [havg]; norm_num
  · rw [hmin]; norm_num
  · rw [hmax]; norm_num

/-- Claim C10: `compute_stats` is total on the empty series: it returns
`count = 0`, `offset_min = +inf` and `offset_max = -inf` (the fold
initializers), and the unguarded division `0.0 / 0.0` makes both averages
NaN. -/
theorem c10_empty_series_total :
    compute_stats [] =
      { count := 0, offset_avg := EF.nan, offset_min := EF.inf,
        offset_max := EF.ninf, rtt_avg := EF.nan } := by
  decide

theorem query_loop_run_oks (plugin : Bool) (w c : Option EF)
    (samples : List ProbeResult) (rest : List (Except RkikError ProbeResult))
    (acc : List ProbeResult) :
    query_loop_run plugin w c (samples.map Except.ok ++ rest) acc =
      query_loop_run plugin w c rest (acc ++ samples) := by
  induction samples generalizing acc with
  | nil => simp
  | cons s t ih =>
    show query_loop_run plugin w c (Except.ok s :: (t.map Except.ok ++ rest)) acc = _
    rw [query_loop_run, ih]
    simp

/-- Claim C2 (amended): in plugin mode, a run in which every probe attempt
succeeded is scored from `|offset_avg|` — CRITICAL/2 if `critical` is set
and `|offset_avg| >= critical`, else WARNING/1 if `warning` is set and
`|offset_avg| >= warning`, else OK/0, both boundaries inclusive — while a
run with zero successful samples, or any probe failure regardless of
earlier successes, yields UNKNOWN/3; the state labels follow the fixed
Nagios mapping. -/
theorem pluginFinish_eq (all : List ProbeResult) (w c : Option EF) :
    pluginFinish all w c =
      (if all = [] then 3
       else
         if (match c with
             | some cv => EF.le cv (compute_stats all).offset_avg.abs
             | none => false) then 2
         else
           if (match w with
               | some wv => EF.le wv (compute_stats all).offset_avg.abs
               | none => false) then 1
           else 0) := by
  unfold pluginFinish thresholdExit
  by_cases hall : all = []
  · simp [hall]
  · rw [if_neg hall, if_neg hall]
    cases c with
    | none =>
      cases w with
      | none => simp
      | some wv => simp
    | some cv =>
      by_cases hle : EF.le cv (compute_stats all).offset_avg.abs = true
      · simp [hle]
      · cases w with
        | none => simp [hle]
        | some wv => simp [hle]

theorem c2_plugin_verdict (samples : List ProbeResult) (w c : Option EF)
    (e : RkikError) (post : List (Except RkikError ProbeResult)) :
    (query_loop_run true w c (samples.map Except.ok) [] =
      (if samples = [] then 3
       else
         if (match c with
             | some cv => EF.le cv (compute_stats samples).offset_avg.abs
             | none => false) then 2
         else
           if (match w with
               | some wv => EF.le wv (compute_stats samples).offset_avg.abs
               | none => false) then 1
           else 0))
    ∧ query_loop_run true w c (samples.map Except.ok ++ Except.error e :: post) [] = 3
    ∧ stateName 0 = "OK" ∧ stateName 1 = "WARNING"
    ∧ stateName 2 = "CRITICAL" ∧ stateName 3 = "UNKNOWN" := by
  refine ⟨?_, ?_, rfl, rfl, rfl, rfl⟩
  · have h := query_loop_run_oks true w c samples [] []
    simp only [List.append_nil, List.nil_append] at h
    rw [h]
    show pluginFinish samples w c = _
    exact pluginFinish_eq samples w c
  · rw [query_loop_run_oks]
    rfl

/-- Counterexample to C2 as stated: this sampling run produced one
successful sample (offset 0) before a failure, so the claim (thresholds
unset) requires the OK verdict and exit code 0, but the code exits 3
(UNKNOWN) — a probe failure in plugin mode exits immediately regardless of
earlier successes. -/
theorem c2_counterexample :
    query_loop_run true none none
        [Except.ok sample0, Except.error (RkikError.Network ("boom"))] [] = 3
    ∧ thresholdExit (compute_stats [sample0]) none none = 0
    ∧ query_loop_run true none none
        [Except.ok sample0, Except.error (RkikError.Network ("boom"))] [] ≠
      thresholdExit (compute_stats [sample0]) none none := by
  refine ⟨rfl, rfl, by decide⟩

theorem validateArgs_cases (a : Args) :
    validateArgs a = some 2 ∨ validateArgs a = none := by
  unfold validateArgs
  repeat' split
  all_goals simp

theorem validateArgs_none_facts (a : Args) (h : validateArgs a = none) :
    (a.plugin && negThreshold a.warning) = false
    ∧ (a.plugin && negThreshold a.critical) = false
    ∧ (a.plugin && (match a.warning, a.critical with
        | some w, some c => EF.le c w
        | _, _ => false)) = false
    ∧ (a.infinite && a.count != 1) = false
    ∧ (!(EF.beq a.interval (EF.fin 1)) && !a.infinite && a.count == 1) = false := by
  unfold validateArgs at h
  repeat' split at h
  all_goals simp_all

/-- Claim C7 (amended): each contradictory-flag situation — infinite mode
with an explicit count greater than 1; a negative warning or critical
threshold (with `--plugin`, which the thresholds require); warning not
strictly below critical when both are set; and a non-default interval with
neither infinite mode nor a count different from the default 1 — makes
`main` exit with code 2 before the dispatch stage, so before any probe. -/
theorem c7_usage_errors (a : Args) (dispatch : Args → Nat)
    (h : usageViolation a) : rkikMain a dispatch = (2, false) := by
  have hsome : validateArgs a = some 2 := by
    rcases validateArgs_cases a with hv | hv
    · exact hv
    · exfalso
      obtain ⟨f1, f2, f3, f4, f5⟩ := validateArgs_none_facts a hv
      rcases h with ⟨hi, hc⟩ | ⟨hp, w, hw, hneg⟩ | ⟨hp, cq, hcq, hneg⟩ |
        ⟨hp, w, cq, hw, hcq, hge⟩ | ⟨hb, hi, hc⟩
      · rw [hi] at f4
        simp only [Bool.true_and, bne_eq_false_iff_eq] at f4
        omega
      · rw [hp, hw] at f1
        simp only [Bool.true_and, negThreshold, EF.lt] at f1
        rw [decide_eq_false_iff_not] at f1
        exact f1 hneg
      · rw [hp, hcq] at f2
        simp only [Bool.true_and, negThreshold, EF.lt] at f2
        rw [decide_eq_false_iff_not] at f2
        exact f2 hneg
      · rw [hp, hw, hcq] at f3
        simp only [Bool.true_and, EF.le] at f3
        rw [decide_eq_false_iff_not] at f3
        exact f3 (le_of_not_lt hge)
      · rw [hb, hi, hc] at f5
        simp at f5
  unfold rkikMain
  rw [hsome]

/-- Counterexample to C7 as stated: a non-default interval (2.0) without
infinite mode and with count 0 — which is not greater than 1, so the claim
demands a usage error — passes every validation check, and `main` proceeds
to the dispatch/probing stage. -/
theorem c7_counterexample :
    validateArgs ⟨false, none, none, false, 0, EF.fin 2, none⟩ = none
    ∧ rkikMain ⟨false, none, none, false, 0, EF.fin 2, none⟩ (fun _ => 0) = (0, true) := by
  refine ⟨rfl, rfl⟩

/-- Witness for C7 at a concrete violation: infinite mode with count 5. -/
theorem c7_witness :
    usageViolation ⟨false, none, none, true, 5, EF.fin 1, none⟩
    ∧ rkikMain ⟨false, none, none, true, 5, EF.fin 1, none⟩ (fun _ => 0) = (2, false) := by
  refine ⟨Or.inl ⟨rfl, by decide⟩, c7_usage_errors _ _ (Or.inl ⟨rfl, by decide⟩)⟩

/-- Claim C8: in interactive mode (no plugin flag) the first probe failure
aborts the run with the exit code mapped from the error kind — Dns → 2,
the adapter-produced timeout error `Network("timeout")` → 3, every other
error → 1 — and in particular a target whose host fails system resolution
makes the whole command exit with code 2. -/
theorem c8_interactive_exit :
    (∀ (pre : List ProbeResult) (e : RkikError)
        (post : List (Except RkikError ProbeResult)),
      query_loop_run false none none
        (pre.map Except.ok ++ Except.error e :: post) [] = handle_error e)
    ∧ (∀ s, handle_error (RkikError.Dns s) = 2)
    ∧ (∀ s, handle_error (RkikError.Network s) = if s = "timeout" then 3 else 1)
    ∧ (∀ s, handle_error (RkikError.Protocol s) = 1)
    ∧ (∀ s, handle_error (RkikError.IoError s) = 1)
    ∧ (∀ s, handle_error (RkikError.Other s) = 1)
    ∧ ntp_query_outcome none = Except.error (RkikError.Network ("timeout"))
    ∧ (∀ (sys : List Char → Except String (List IpAddr))
        (client : IpAddr → Bool → Nat → Nat → Except RkikError SynchronizationResult)
        (target : List Char) (ipv6 : Bool) (t : Nat) (p : ParsedTarget) (msg : String),
      parse_target target = Except.ok p → sys p.host = Except.error msg →
      query_loop_run false none none [query_one sys client target ipv6 t] [] = 2) := by
  refine ⟨?_, fun _ => rfl, fun _ => rfl, fun _ => rfl, fun _ => rfl, fun _ => rfl,
    rfl, ?_⟩
  · intro pre e post
    rw [query_loop_run_oks]
    rfl
  · intro sys client target ipv6 t p msg hp hsys
    have hq : query_one sys client target ipv6 t = .error (RkikError.Dns msg) := by
      unfold query_one
      rw [hp]
      show (match resolve_ip sys p.host ipv6 with
            | .error e => Except.error e
            | .ok ip => _) = _
      unfold resolve_ip
      rw [hsys]
    rw [hq]
    rfl

/-- Witness for C8: probing an unresolvable hostname through the
single-target query service in interactive mode exits with code 2. -/
theorem c8_witness :
    query_loop_run false none none
      [query_one (fun _ => Except.error ("nx")) clientFix
        ("no.such.domain.example".toList) false 5] [] = 2 := by
  exact c8_interactive_exit.2.2.2.2.2.2.2 (fun _ => Except.error ("nx")) clientFix
    ("no.such.domain.example".toList) false 5
    ⟨"no.such.domain.example".toList, none, false⟩ "nx" (by rfl) (by rfl)

/-- Claim C6: when system resolution yields at least one IPv4 and one IPv6
address and `ipv6_only = false`, `resolve_ip` returns an IPv4 address — the
head of the IPv4-then-IPv6 concatenation; with `ipv6_only = true` it
returns an IPv6 address, or a Dns error when no IPv6 address exists; an
empty address list always yields a Dns error. -/
theorem c6_resolver_preference (sys : List Char → Except String (List IpAddr))
    (host : List Char) (addrs : List IpAddr) (hsys : sys host = .ok addrs) :
    ((∃ x ∈ addrs, x.is_ipv4 = true) → (∃ y ∈ addrs, y.is_ipv6 = true) →
      ∃ ip, resolve_ip sys host false = .ok ip ∧ ip.is_ipv4 = true ∧
        (addrs.filter (fun x => x.is_ipv4)).head? = some ip)
    ∧ ((∃ y ∈ addrs, y.is_ipv6 = true) →
      ∃ ip, resolve_ip sys host true = .ok ip ∧ ip.is_ipv6 = true)
    ∧ ((∀ y ∈ addrs, y.is_ipv6 = false) →
      resolve_ip sys host true =
        .error (RkikError.Dns ("No IPv6 address found for " ++
          squote ++ host.asString ++ squote)))
    ∧ (addrs = [] →
      resolve_ip sys host false =
        .error (RkikError.Dns ("No IP address found for " ++
          squote ++ host.asString ++ squote))
      ∧ resolve_ip sys host true =
        .error (RkikError.Dns ("No IPv6 address found for " ++
          squote ++ host.asString ++ squote))) := by
  refine ⟨?_, ?_, ?_, ?_⟩
  · rintro ⟨x, hx, hx4⟩ -
    unfold resolve_ip
    rw [hsys]
    simp only [Bool.false_eq_true, if_false, List.partition_eq_filter_filter]
    rcases hf : addrs.filter (fun a => a.is_ipv4) with - | ⟨ip, rest⟩
    · exfalso
      have : x ∈ addrs.filter (fun a => a.is_ipv4) := List.mem_filter.2 ⟨hx, hx4⟩
      rw [hf] at this
      exact List.not_mem_nil x this
    · refine ⟨ip, ?_, ?_, by rw [hf]; rfl⟩
      · rw [hf, List.cons_append]
      · have : ip ∈ addrs.filter (fun a => a.is_ipv4) := by
          rw [hf]; exact List.mem_cons_self _ _
        exact (List.mem_filter.1 this).2
  · rintro ⟨y, hy, hy6⟩
    unfold resolve_ip
    rw [hsys]
    simp only [if_true]
    rcases hf : addrs.filter (fun a => a.is_ipv6) with - | ⟨ip, rest⟩
    · exfalso
      have : y ∈ addrs.filter (fun a => a.is_ipv6) := List.mem_filter.2 ⟨hy, hy6⟩
      rw [hf] at this
      exact List.not_mem_nil y this
    · refine ⟨ip, ?_, ?_⟩
      · rw [hf]
      · have : ip ∈ addrs.filter (fun a => a.is_ipv6) := by
          rw [hf]; exact List.mem_cons_self _ _
        exact (List.mem_filter.1 this).2
  · intro hall
    unfold resolve_ip
    rw [hsys]
    simp only [if_true]
    have hf : addrs.filter (fun a => a.is_ipv6) = [] := by
      rw [List.filter_eq_nil_iff]
      intro y hy
      simp [hall y hy]
    rw [hf]
  · rintro rfl
    refine ⟨?_, ?_⟩ <;> (unfold resolve_ip; rw [hsys]; rfl)

/-- Witness for C6: with records `[AAAA 7, A 3, A 4]` (AAAA first in system
order), IPv4-preferring resolution still picks an IPv4 address and
IPv6-only resolution picks an IPv6 address. -/
theorem c6_witness :
    (∃ ip, resolve_ip sysMixed ("mixed.example".toList) false = .ok ip ∧
      ip.is_ipv4 = true)
    ∧ (∃ ip, resolve_ip sysMixed ("mixed.example".toList) true = .ok ip ∧
      ip.is_ipv6 = true) := by
  obtain ⟨h1, h2, -, -⟩ := c6_resolver_preference sysMixed ("mixed.example".toList)
    [IpAddr.v6 7, IpAddr.v4 3, IpAddr.v4 4] rfl
  obtain ⟨ip, hres, hip4, -⟩ :=
    h1 ⟨IpAddr.v4 3, by simp, rfl⟩ ⟨IpAddr.v6 7, by simp, rfl⟩
  obtain ⟨ip6, hres6, hip6⟩ := h2 ⟨IpAddr.v6 7, by simp, rfl⟩
  exact ⟨⟨ip, hres, hip4⟩, ⟨ip6, hres6, hip6⟩⟩

theorem takeWhile_append_all (p : Char → Bool) (xs ys : List Char)
    (h : ∀ x ∈ xs, p x = true) :
    (xs ++ ys).takeWhile p = xs ++ ys.takeWhile p := by
  induction xs with
  | nil => simp
  | cons a t ih =>
    rw [List.cons_append, List.takeWhile_cons, if_pos (h a (List.mem_cons_self a t)),
      ih (fun x hx => h x (List.mem_cons_of_mem a hx)), List.cons_append]

theorem dropWhile_append_all (p : Char → Bool) (xs ys : List Char)
    (h : ∀ x ∈ xs, p x = true) :
    (xs ++ ys).dropWhile p = ys.dropWhile p := by
  induction xs with
  | nil => simp
  | cons a t ih =>
    rw [List.cons_append, List.dropWhile_cons, if_pos (h a (List.mem_cons_self a t)),
      ih (fun x hx => h x (List.mem_cons_of_mem a hx))]

theorem rev_split_at_colon (host p : List Char)
    (hp : ∀ x ∈ p, (x == ':') = false) :
    ((host ++ ':' :: p).reverse.takeWhile (fun ch => ch != ':')).reverse = p
    ∧ (((host ++ ':' :: p).reverse.dropWhile (fun ch => ch != ':')).drop 1).reverse = host := by
  have hrev : (host ++ ':' :: p).reverse = p.reverse ++ ':' :: host.reverse := by
    rw [List.reverse_append, List.reverse_cons, List.append_assoc]
    rfl
  have hall : ∀ x ∈ p.reverse, (x != ':') = true := by
    intro x hx
    have := hp x (List.mem_reverse.1 hx)
    simp [bne, this]
  constructor
  · rw [hrev, takeWhile_append_all _ _ _ hall, List.takeWhile_cons]
    simp
  · rw [hrev, dropWhile_append_all _ _ _ hall, List.dropWhile_cons]
    simp

theorem colon_count_append (xs ys : List Char) :
    colon_count (xs ++ ys) = colon_count xs + colon_count ys := by
  unfold colon_count
  exact List.countP_append _ xs ys

theorem colon_count_of_digits (p : List Char) (h : p.all Char.isDigit = true) :
    colon_count p = 0 := by
  unfold colon_count
  rw [List.countP_eq_zero]
  intro a ha
  have hd : a.isDigit = true := by
    rw [List.all_eq_true] at h
    exact h a ha
  intro hc
  rw [beq_iff_eq] at hc
  subst hc
  simp [Char.isDigit] at hd

theorem parse_target_nonbracket (s : List Char) (a : Char) (t : List Char)
    (hs : trim s = a :: t) (ha : a ≠ '[') :
    parse_target s =
      (if colon_count (a :: t) = 0 then Except.ok ⟨a :: t, none, false⟩
       else if colon_count (a :: t) = 1 then
         (if (((a :: t).reverse.dropWhile (fun ch => ch != ':')).drop 1).reverse = [] then
           Except.error (RkikError.Other ("missing host before port in " ++
             squote ++ (a :: t).asString ++ squote))
         else
           match parse_port_strict
               (((a :: t).reverse.takeWhile (fun ch => ch != ':')).reverse) with
           | .ok port =>
             Except.ok ⟨(((a :: t).reverse.dropWhile (fun ch => ch != ':')).drop 1).reverse,
               some port, false⟩
           | .error e => Except.error e)
       else Except.ok ⟨a :: t, none, true⟩) := by
  unfold parse_target
  rw [hs]
  split
  · rename_i heq
    exact absurd heq (List.cons_ne_nil a t)
  · rename_i x rest heq
    injection heq with h1 h2
    exact absurd h1 ha
  · rfl

/-- Counterexample to C4 as stated: the claim says
`parse("2001:db8::1:123")` fails, but the parser accepts it as a bare IPv6
literal host with no port. -/
theorem c4_counterexample :
    parse_target ("2001:db8::1:123".toList) =
      .ok ⟨"2001:db8::1:123".toList, none, true⟩ := by
  rfl

/-- Claim C4 (amended): unbracketed input with two or more colons is
accepted as a bare IPv6 literal covering the whole string with no port (so
`parse("2001:db8::1:123")` succeeds with `port = None` rather than
failing); `parse("[2001:db8::1]:123")` succeeds with port 123;
`parse("2001:db8::1")` succeeds with `is_ipv6_literal = true` and no port;
a port on an IPv6 literal is only recognized in bracketed form. -/
theorem c4_ipv6_ambiguity :
    (∀ (s : List Char) (a : Char) (t : List Char), trim s = a :: t → a ≠ '[' →
      2 ≤ colon_count (a :: t) → parse_target s = .ok ⟨a :: t, none, true⟩)
    ∧ parse_target ("[2001:db8::1]:123".toList) =
        .ok ⟨"2001:db8::1".toList, some 123, true⟩
    ∧ parse_target ("2001:db8::1".toList) =
        .ok ⟨"2001:db8::1".toList, none, true⟩ := by
  refine ⟨?_, rfl, rfl⟩
  intro s a t hs ha h2
  rw [parse_target_nonbracket s a t hs ha, if_neg (by omega), if_neg (by omega)]

/-- Witness for C4 at `fe80::1` (two colons, unbracketed): accepted as a
bare literal with no port. -/
theorem c4_witness :
    parse_target ("fe80::1".toList) = .ok ⟨"fe80::1".toList, none, true⟩ := by
  exact c4_ipv6_ambiguity.1 ("fe80::1".toList) 'f' ("e80::1".toList) rfl
    (by decide) (by decide)

theorem u32_from_str_digits (p : List Char) (hp : p ≠ [])
    (hdig : p.all Char.isDigit = true) :
    u32_from_str p =
      (if digitsToNat p ≤ 4294967295 then some (digitsToNat p) else none) := by
  obtain ⟨d, ds, rfl⟩ := List.exists_cons_of_ne_nil hp
  have hd : d.isDigit = true := by
    rw [List.all_eq_true] at hdig
    exact hdig d (List.mem_cons_self _ _)
  have hdp : (d :: ds).head? ≠ some '+' := by
    intro h
    rw [List.head?_cons, Option.some.injEq] at h
    subst h
    exact absurd hd (by decide)
  unfold u32_from_str
  rw [if_neg hdp, if_pos (by simp [hdig])]

/-- Claim C5: for a `host:port` input (colon-free non-bracketed host, a
digit-string port of value `v`), the parser accepts exactly the ports in
`[1, 65535]`: a value above `u32::MAX` fails integer parsing with an error
naming the offending digit string; `0` or a value above 65535 fails the
range check with an error naming the offending value; anything else parses
to that port. -/
theorem c5_port_bounds (host p : List Char) (v : Nat)
    (hhost : host ≠ []) (hhead : host.head? ≠ some '[')
    (hhc : colon_count host = 0)
    (htrim : trim (host ++ ':' :: p) = host ++ ':' :: p)
    (hp : p ≠ []) (hdig : p.all Char.isDigit = true)
    (hv : digitsToNat p = v) :
    parse_target (host ++ ':' :: p) =
      (if 4294967295 < v then
        Except.error (RkikError.Other ("invalid port: " ++ squote ++ p.asString ++ squote))
      else if v = 0 || 65535 < v then
        Except.error (RkikError.Other ("port out of range [1..65535]: " ++ Nat.repr v))
      else Except.ok ⟨host, some v, false⟩) := by
  obtain ⟨a, hh, rfl⟩ := List.exists_cons_of_ne_nil hhost
  have ha : a ≠ '[' := by
    intro h
    subst h
    exact hhead rfl
  have hpall : ∀ x ∈ p, (x == ':') = false := by
    intro x hx
    have hxd : x.isDigit = true := by
      rw [List.all_eq_true] at hdig
      exact hdig x hx
    rw [beq_eq_false_iff_ne]
    intro h
    subst h
    exact absurd hxd (by decide)
  have hcp : colon_count p = 0 := colon_count_of_digits p hdig
  have hcount : colon_count ((a :: hh) ++ ':' :: p) = 1 := by
    rw [colon_count_append, hhc]
    unfold colon_count
    rw [List.countP_cons]
    unfold colon_count at hcp
    simp [hcp]
  have hsplit := rev_split_at_colon (a :: hh) p hpall
  have hns : (a :: hh) ++ ':' :: p = a :: (hh ++ ':' :: p) := by
    rw [List.cons_append]
  have hparse := parse_target_nonbracket ((a :: hh) ++ ':' :: p) a (hh ++ ':' :: p)
    (by rw [htrim, hns]) ha
  have hpps : parse_port_strict p =
      (if 4294967295 < v then
        Except.error (RkikError.Other ("invalid port: " ++ squote ++ p.asString ++ squote))
      else if v = 0 || 65535 < v then
        Except.error (RkikError.Other ("port out of range [1..65535]: " ++ Nat.repr v))
      else Except.ok v) := by
    unfold parse_port_strict
    rw [u32_from_str_digits p hp hdig, hv]
    by_cases hbig : 4294967295 < v
    · rw [if_neg (by omega), if_pos hbig]
    · rw [if_pos (by omega), if_neg hbig]
  obtain ⟨hsp1, hsp2⟩ := hsplit
  rw [hns] at hcount hsp1 hsp2
  rw [hparse, if_neg (by simp [hcount]), if_pos hcount, hsp1, hsp2,
    if_neg (List.cons_ne_nil a hh), hpps]
  split_ifs <;> rfl

/-- Witness for C5 at the spec's four probes: `host:0` and `host:70000`
fail naming the offending value, `host:1` and `host:65535` succeed. -/
theorem c5_witness :
    parse_target ("host:0".toList) =
      .error (RkikError.Other ("port out of range [1..65535]: " ++ Nat.repr 0))
    ∧ parse_target ("host:70000".toList) =
      .error (RkikError.Other ("port out of range [1..65535]: " ++ Nat.repr 70000))
    ∧ parse_target ("host:1".toList) = .ok ⟨"host".toList, some 1, false⟩
    ∧ parse_target ("host:65535".toList) = .ok ⟨"host".toList, some 65535, false⟩ := by
  refine ⟨?_, ?_, ?_, ?_⟩
  · have h := c5_port_bounds ("host".toList) ("0".toList) 0 (by decide) (by decide)
      (by decide) (by rfl) (by decide) (by decide) (by rfl)
    rw [show ("host:0".toList) = ("host".toList ++ ':' :: "0".toList) from rfl, h]
    rfl
  · have h := c5_port_bounds ("host".toList) ("70000".toList) 70000 (by decide) (by decide)
      (by decide) (by rfl) (by decide) (by decide) (by rfl)
    rw [show ("host:70000".toList) = ("host".toList ++ ':' :: "70000".toList) from rfl, h]
    rfl
  · have h := c5_port_bounds ("host".toList) ("1".toList) 1 (by decide) (by decide)
      (by decide) (by rfl) (by decide) (by decide) (by rfl)
    rw [show ("host:1".toList) = ("host".toList ++ ':' :: "1".toList) from rfl, h]
    rfl
  · have h := c5_port_bounds ("host".toList) ("65535".toList) 65535 (by decide) (by decide)
      (by decide) (by rfl) (by decide) (by decide) (by rfl)
    rw [show ("host:65535".toList) = ("host".toList ++ ':' :: "65535".toList) from rfl, h]
    rfl

/-- Counterexample to C3 as stated: the target `[example.com]` parses with
`is_ipv6_literal = true`, yet with caller preference `ipv6 = false` and a
host holding both an A and an AAAA record, the probe is built on the IPv4
address — resolution ran in the caller's IPv4-preferring mode, whereas
IPv6-mode resolution of the same host yields the IPv6 address. The forced
flag therefore does not apply to resolution. -/
theorem c3_counterexample :
    parse_target ("[example.com]".toList) = .ok ⟨"example.com".toList, none, true⟩
    ∧ query_one sysBoth clientFix ("[example.com]".toList) false 5 =
      .ok { target := ⟨"[example.com]", IpAddr.v4 1, 123⟩
            offset_ms := EF.mul (EF.fin 0) (EF.fin 1000)
            rtt_ms := EF.mul (EF.fin 0) (EF.fin 1000)
            stratum := 2
            ref_id := "REF"
            timestamp := 0
            authenticated := false }
    ∧ resolve_ip sysBoth ("example.com".toList) true = .ok (IpAddr.v6 1) := by
  refine ⟨rfl, rfl, rfl⟩

/-- Claim C3 (amended): for every target that parses with
`is_ipv6_literal = true`, `query_one` resolves the host with the caller's
original `ipv6` preference, and only the NTP client invocation receives the
flag forced to true — the override happens after resolution, not before. -/
theorem c3_ipv6_literal_flag (sys : List Char → Except String (List IpAddr))
    (client : IpAddr → Bool → Nat → Nat → Except RkikError SynchronizationResult)
    (target : List Char) (ipv6 : Bool) (t : Nat) (p : ParsedTarget)
    (hp : parse_target target = .ok p) (hl : p.is_ipv6_literal = true) :
    query_one sys client target ipv6 t =
      (match resolve_ip sys p.host ipv6 with
       | .error e => .error e
       | .ok ip =>
         match client ip true t (p.port.getD 123) with
         | .error e => .error e
         | .ok res => finishProbe target ip (p.port.getD 123) res) := by
  unfold query_one
  rw [hp]
  show (match resolve_ip sys p.host ipv6 with
        | .error e => Except.error e
        | .ok ip =>
          match client ip (if p.is_ipv6_literal then true else ipv6) t (p.port.getD 123) with
          | .error e => Except.error e
          | .ok res => finishProbe target ip (p.port.getD 123) res) = _
  simp [hl]

/-- Witness for C3 at the bare literal `2001:db8::1` with caller preference
`ipv6 = false`. -/
theorem c3_witness :
    query_one sysV6only clientFix ("2001:db8::1".toList) false 5 =
      (match resolve_ip sysV6only ("2001:db8::1".toList) false with
       | .error e => .error e
       | .ok ip =>
         match clientFix ip true 5 123 with
         | .error e => .error e
         | .ok res => finishProbe ("2001:db8::1".toList) ip 123 res) := by
  exact c3_ipv6_literal_flag sysV6only clientFix ("2001:db8::1".toList) false 5
    ⟨"2001:db8::1".toList, none, true⟩ rfl rfl

theorem zip_map_sync_filterMap (l : List (List Char × IpAddr))
    (sync : IpAddr → Except String EF) :
    ((l.zip (l.map (fun v => sync v.2))).filterMap (fun pr =>
      match pr.2 with
      | .ok r => some (pr.1.1, pr.1.2, EF.mul r (EF.fin 1000))
      | .error _ => none)) =
    l.filterMap (fun v =>
      match sync v.2 with
      | .ok r => some (v.1, v.2, EF.mul r (EF.fin 1000))
      | .error _ => none) := by
  induction l with
  | nil => rfl
  | cons x xs ih =>
    rw [List.map_cons, List.zip_cons_cons, List.filterMap_cons, List.filterMap_cons]
    cases sync x.2 <;> simp [ih]

/-- Claim C1 (amended): in the core fan-out compare, when at least two
requested targets fully succeed (resolution and synchronization), the
engine returns exactly the successful measurements, in original input-list
order — per-target failures are excluded, not escalated. (When fewer than
two targets succeed, and in the service-layer `compare_many` whenever any
target fails, the failure escalates into a batch-level error instead.) -/
theorem c1_fanout_success_order (sys : List Char → Except String (List IpAddr))
    (sync : IpAddr → Except String EF) (servers : List (List Char)) (ipv6 : Bool)
    (h2 : 2 ≤ servers.length)
    (hsucc : 2 ≤ (servers.filterMap (Core.successOf sys sync ipv6)).length) :
    Core.compare sys sync servers ipv6 =
      .ok (servers.filterMap (Core.successOf sys sync ipv6)) := by
  have hvalid : (servers.map (fun s => (s, Core.resolve_ip sys s ipv6))).filterMap
      (fun p => match p.2 with
        | Except.ok addr => some (p.1, addr)
        | Except.error _ => none)
      = servers.filterMap (fun s => match Core.resolve_ip sys s ipv6 with
        | Except.ok addr => some (s, addr)
        | Except.error _ => none) := by
    rw [List.filterMap_map]
    rfl
  have hfin : ((servers.filterMap (fun s => match Core.resolve_ip sys s ipv6 with
        | Except.ok addr => some (s, addr)
        | Except.error _ => none)).filterMap (fun v =>
        match sync v.2 with
        | .ok r => some (v.1, v.2, EF.mul r (EF.fin 1000))
        | .error _ => none))
      = servers.filterMap (Core.successOf sys sync ipv6) := by
    rw [List.filterMap_filterMap]
    congr 1
    funext s
    unfold Core.successOf
    cases Core.resolve_ip sys s ipv6 with
    | error e => rfl
    | ok ip => cases sync ip <;> rfl
  have hvlen : 2 ≤ (servers.filterMap (fun s => match Core.resolve_ip sys s ipv6 with
      | Except.ok addr => some (s, addr)
      | Except.error _ => none)).length := by
    refine le_trans hsucc ?_
    rw [← hfin]
    exact List.length_filterMap_le _ _
  unfold Core.compare
  rw [if_neg (by omega)]
  simp only [hvalid]
  rw [if_neg (by omega), zip_map_sync_filterMap, hfin, if_neg (by omega)]

/-- Counterexample to C1 as stated: with three targets of which exactly one
(`b`) fails resolution, the service-layer `compare_many` — the fan-out
entry point the binary calls — escalates that single failure into a
batch-level error (`out.push(res?)` propagates the first error) even though
the other two targets succeed; the claim requires the two successful
measurements instead. -/
theorem c1_counterexample :
    compare_many sysAB clientFix [("a".toList), ("b".toList), ("c".toList)] false 5 =
      .error (RkikError.Dns ("nx"))
    ∧ query_one sysAB clientFix ("a".toList) false 5 =
      .ok { target := ⟨"a", IpAddr.v4 1, 123⟩
            offset_ms := EF.mul (EF.fin 0) (EF.fin 1000)
            rtt_ms := EF.mul (EF.fin 0) (EF.fin 1000)
            stratum := 2
            ref_id := "REF"
            timestamp := 0
            authenticated := false }
    ∧ query_one sysAB clientFix ("c".toList) false 5 =
      .ok { target := ⟨"c", IpAddr.v4 1, 123⟩
            offset_ms := EF.mul (EF.fin 0) (EF.fin 1000)
            rtt_ms := EF.mul (EF.fin 0) (EF.fin 1000)
            stratum := 2
            ref_id := "REF"
            timestamp := 0
            authenticated := false } := by
  refine ⟨rfl, rfl, rfl⟩

/-- Witness for C1 at three targets with exactly one (`b`) failing: the
core engine returns exactly the two successful measurements in input
order. -/
theorem c1_witness :
    Core.compare sysAB syncFixZero [("a".toList), ("b".toList), ("c".toList)] false =
      .ok [(("a".toList), IpAddr.v4 1, EF.mul (EF.fin 0) (EF.fin 1000)),
           (("c".toList), IpAddr.v4 1, EF.mul (EF.fin 0) (EF.fin 1000))] := by
  have h := c1_fanout_success_order sysAB syncFixZero
    [("a".toList), ("b".toList), ("c".toList)] false (by decide) (by decide)
  exact h.trans rfl
